import Mathlib

/-!
Verification development for the rss2mastodon repository.

The definitions below are a shallow embedding of the change-detection and
de-duplication core of the program:

* `HashContent` embeds `rss.HashContent`, which returns
  `sha256.Sum256([]byte(content))` — SHA-256 per FIPS 180-4, implemented
  here over `Nat` with explicit reduction modulo `2^32`.  A digest is a
  list of 32 bytes (each `< 256`).
* `fmtHex` embeds Go's `fmt.Sprintf("%x", contentHash)` on a `[32]byte`:
  each byte becomes two lowercase hexadecimal digits, high nibble first.
* `Store`, `lookupRecord`, `upsert`, `StoreTootedPost` embed the SQLite
  table `tooted_posts(link TEXT PRIMARY KEY, content_hash TEXT,
  timestamp TEXT)` of `internal/db/db.go`, with `INSERT OR REPLACE`
  semantics.  The wall clock `time.Now().Format(time.RFC3339)` is passed
  in as the explicit string `now`.
* `ScanResult` embeds the outcome of `row.Scan(&storedHash)` in
  `HasPostChanged`: `sql.ErrNoRows`, some other read error, or the stored
  hash.  `scanOf` is the fault-free read of a concrete store state;
  `scanWith` adds a per-link fault oracle for storage read errors.
* `HasPostChanged` embeds `db.HasPostChanged`, `GetTootContent` embeds
  `mastodon.GetTootContent`, `handlePost` embeds
  `rss2mastodon.handlePost` with the external notifier
  (`mastodon.TootPost`) abstracted as an oracle `String → NotifyResult`.
* `loopIteration` / `loopTrace` embed the control flow of one iteration
  of the `for` loop in `rss2mastodon.Run` (with an empty category filter,
  in which case the `if category != ""` guard in the source skips no
  post): on a fetch error the source logs and `continue`s — which skips
  the `time.Sleep` at the bottom of the loop body — and on success it
  handles every post and then sleeps for the configured interval.
-/

/-! ## SHA-256 (Go `crypto/sha256.Sum256`, FIPS 180-4) -/

/-- `2^32`, the word modulus of SHA-256. -/
def M32 : Nat := 4294967296

/-- Right rotation of a 32-bit word represented as a reduced `Nat`. -/
def rotr32 (n x : Nat) : Nat := x / 2 ^ n + x % 2 ^ n * 2 ^ (32 - n)

/-- Logical right shift of a 32-bit word. -/
def shr32 (n x : Nat) : Nat := x / 2 ^ n

/-- Bitwise complement of a reduced 32-bit word. -/
def not32 (x : Nat) : Nat := (M32 - 1) - x % M32

/-- Three-way xor. -/
def xor3 (a b c : Nat) : Nat := Nat.xor (Nat.xor a b) c

/-- SHA-256 `Ch(x, y, z)`. -/
def ch32 (x y z : Nat) : Nat := Nat.xor (Nat.land x y) (Nat.land (not32 x) z)

/-- SHA-256 `Maj(x, y, z)`. -/
def maj32 (x y z : Nat) : Nat := xor3 (Nat.land x y) (Nat.land x z) (Nat.land y z)

/-- SHA-256 `Σ0`. -/
def bSig0 (x : Nat) : Nat := xor3 (rotr32 2 x) (rotr32 13 x) (rotr32 22 x)

/-- SHA-256 `Σ1`. -/
def bSig1 (x : Nat) : Nat := xor3 (rotr32 6 x) (rotr32 11 x) (rotr32 25 x)

/-- SHA-256 `σ0`. -/
def sSig0 (x : Nat) : Nat := xor3 (rotr32 7 x) (rotr32 18 x) (shr32 3 x)

/-- SHA-256 `σ1`. -/
def sSig1 (x : Nat) : Nat := xor3 (rotr32 17 x) (rotr32 19 x) (shr32 10 x)

/-- The 64 SHA-256 round constants (FIPS 180-4 §4.2.2), written in decimal. -/
def K256 : List Nat :=
  [1116352408, 1899447441, 3049323471, 3921009573,
   961987163, 1508970993, 2453635748, 2870763221,
   3624381080, 310598401, 607225278, 1426881987,
   1925078388, 2162078206, 2614888103, 3248222580,
   3835390401, 4022224774, 264347078, 604807628,
   770255983, 1249150122, 1555081692, 1996064986,
   2554220882, 2821834349, 2952996808, 3210313671,
   3336571891, 3584528711, 113926993, 338241895,
   666307205, 773529912, 1294757372, 1396182291,
   1695183700, 1986661051, 2177026350, 2456956037,
   2730485921, 2820302411, 3259730800, 3345764771,
   3516065817, 3600352804, 4094571909, 275423344,
   430227734, 506948616, 659060556, 883997877,
   958139571, 1322822218, 1537002063, 1747873779,
   1955562222, 2024104815, 2227730452, 2361852424,
   2428436474, 2756734187, 3204031479, 3329325298]

/-- The eight 32-bit words of the running hash. -/
structure SHAState where
  w0 : Nat
  w1 : Nat
  w2 : Nat
  w3 : Nat
  w4 : Nat
  w5 : Nat
  w6 : Nat
  w7 : Nat
deriving Repr, DecidableEq

/-- The SHA-256 initial hash value (FIPS 180-4 §5.3.3), written in decimal. -/
def sha256Init : SHAState :=
  ⟨1779033703, 3144134277, 1013904242, 2773480762,
   1359893119, 2600822924, 528734635, 1541459225⟩

/-- The eight working variables of the compression function. -/
structure ShaWork where
  a : Nat
  b : Nat
  c : Nat
  d : Nat
  e : Nat
  f : Nat
  g : Nat
  h : Nat
deriving Repr, DecidableEq

/-- One round of the SHA-256 compression function. -/
def sha256Round (k w : Nat) (x : ShaWork) : ShaWork :=
  let t1 := (x.h + bSig1 x.e + ch32 x.e x.f x.g + k + w) % M32
  let t2 := (bSig0 x.a + maj32 x.a x.b x.c) % M32
  ⟨(t1 + t2) % M32, x.a, x.b, x.c, (x.d + t1) % M32, x.e, x.f, x.g⟩

/-- The 64 rounds, consuming the round constants and the message schedule. -/
def sha256Rounds : List Nat → List Nat → ShaWork → ShaWork
  | k :: ks, w :: ws, x => sha256Rounds ks ws (sha256Round k w x)
  | _, _, x => x

/-- A big-endian 32-bit word from four bytes. -/
def word32 (b0 b1 b2 b3 : Nat) : Nat := ((b0 * 256 + b1) * 256 + b2) * 256 + b3

/-- Big-endian words from a byte list, four bytes at a time. -/
def toWords : List Nat → List Nat
  | b0 :: b1 :: b2 :: b3 :: rest => word32 b0 b1 b2 b3 :: toWords rest
  | _ => []

/-- Extend the schedule by `fuel` further words. -/
def extendSchedule (w : List Nat) : Nat → List Nat
  | 0 => w
  | fuel + 1 =>
    let i := w.length
    let wi := (sSig1 (w.getD (i - 2) 0) + w.getD (i - 7) 0 +
               sSig0 (w.getD (i - 15) 0) + w.getD (i - 16) 0) % M32
    extendSchedule (w ++ [wi]) fuel

/-- The 64-word message schedule from the 16 words of one block. -/
def msgSchedule (w16 : List Nat) : List Nat := extendSchedule w16 48

/-- Compress one 64-byte block into the running hash. -/
def sha256Compress (st : SHAState) (block : List Nat) : SHAState :=
  let w := msgSchedule (toWords block)
  let x := sha256Rounds K256 w ⟨st.w0, st.w1, st.w2, st.w3, st.w4, st.w5, st.w6, st.w7⟩
  ⟨(st.w0 + x.a) % M32, (st.w1 + x.b) % M32, (st.w2 + x.c) % M32, (st.w3 + x.d) % M32,
   (st.w4 + x.e) % M32, (st.w5 + x.f) % M32, (st.w6 + x.g) % M32, (st.w7 + x.h) % M32⟩

/-- Fold the compression function over the 64-byte blocks of a padded message. -/
def processBlocks (st : SHAState) (bytes : List Nat) : SHAState :=
  match bytes with
  | [] => st
  | b :: rest => processBlocks (sha256Compress st ((b :: rest).take 64)) ((b :: rest).drop 64)
termination_by bytes.length
decreasing_by simp [List.length_drop]; omega

/-- `n` bytes of `v`, big-endian. -/
def toBytesBE : Nat → Nat → List Nat
  | 0, _ => []
  | n + 1, v => toBytesBE n (v / 256) ++ [v % 256]

/-- SHA-256 padding: `0x80`, zeros to 56 mod 64, then the bit length in 8 bytes. -/
def padMessage (msg : List Nat) : List Nat :=
  msg ++ [128] ++ List.replicate ((119 - msg.length % 64) % 64) 0 ++ toBytesBE 8 (8 * msg.length)

/-- The digest as 32 big-endian bytes. -/
def digestBytes (st : SHAState) : List Nat :=
  toBytesBE 4 st.w0 ++ toBytesBE 4 st.w1 ++ toBytesBE 4 st.w2 ++ toBytesBE 4 st.w3 ++
  toBytesBE 4 st.w4 ++ toBytesBE 4 st.w5 ++ toBytesBE 4 st.w6 ++ toBytesBE 4 st.w7

/-- SHA-256 of a byte list. -/
def sha256Bytes (msg : List Nat) : List Nat :=
  digestBytes (processBlocks sha256Init (padMessage msg))

/-- UTF-8 bytes of a string, embedding Go's `[]byte(content)` conversion. -/
def strBytes (s : String) : List Nat := s.toUTF8.toList.map (fun b => b.toNat)

/-- `rss.HashContent`: `sha256.Sum256([]byte(content))`, a 32-byte digest. -/
def HashContent (content : String) : List Nat := sha256Bytes (strBytes content)

/-! ## Hex encoding and the history store (`internal/db/db.go`) -/

/-- The lowercase hexadecimal digits, in order — the digit table `%x` draws
from (the `lowerhex` constant of Go's `fmt` package). -/
def hexChars : List Char := "0123456789abcdef".data

/-- The lowercase hexadecimal digit for a nibble (a value below 16). -/
def hexDigit (n : Nat) : Char :=
  match n with
  | 0 => '0' | 1 => '1' | 2 => '2' | 3 => '3'
  | 4 => '4' | 5 => '5' | 6 => '6' | 7 => '7'
  | 8 => '8' | 9 => '9' | 10 => 'a' | 11 => 'b'
  | 12 => 'c' | 13 => 'd' | 14 => 'e' | _ => 'f'

/-- Each byte as two lowercase hex digits, high nibble first. -/
def hexEncodeBytes : List Nat → List Char
  | [] => []
  | b :: rest => hexDigit (b / 16) :: hexDigit (b % 16) :: hexEncodeBytes rest

/-- Go's `fmt.Sprintf("%x", bytes)` on a byte array. -/
def fmtHex (bs : List Nat) : String := ⟨hexEncodeBytes bs⟩

/-- One row of the `tooted_posts` table (besides its `link` primary key). -/
structure HistoryRecord where
  content_hash : String
  timestamp : String
deriving Repr, DecidableEq

/-- The `tooted_posts` table: association list keyed by the `link` primary key. -/
abbrev Store := List (String × HistoryRecord)

/-- `SELECT content_hash, timestamp FROM tooted_posts WHERE link = ?`. -/
def lookupRecord (s : Store) (link : String) : Option HistoryRecord :=
  match s with
  | [] => none
  | (l, r) :: rest => if l = link then some r else lookupRecord rest link

/-- `INSERT OR REPLACE INTO tooted_posts(link, content_hash, timestamp)`. -/
def upsert (s : Store) (link : String) (r : HistoryRecord) : Store :=
  match s with
  | [] => [(link, r)]
  | (l, r0) :: rest => if l = link then (link, r) :: rest else (l, r0) :: upsert rest link r

/-- `db.StoreTootedPost`: upsert the link with the hex-encoded content hash and
the current time (`time.Now().Format(time.RFC3339)`, passed in as `now`). -/
def StoreTootedPost (s : Store) (link content now : String) : Store :=
  upsert s link ⟨fmtHex (HashContent content), now⟩

/-- The outcome of `row.Scan(&storedHash)` in `db.HasPostChanged`:
`sql.ErrNoRows`, another read error, or the stored hash. -/
inductive ScanResult where
  | noRows
  | ioError (e : String)
  | found (storedHash : String)
deriving Repr, DecidableEq

/-- The scan a fault-free read of store state `s` produces for `link`. -/
def scanOf (s : Store) (link : String) : ScanResult :=
  match lookupRecord s link with
  | none => ScanResult.noRows
  | some r => ScanResult.found r.content_hash

/-- A read with a per-link fault oracle: a faulted link yields a read error,
otherwise the scan reflects the store state. -/
def scanWith (faults : String → Option String) (s : Store) (link : String) : ScanResult :=
  match faults link with
  | some e => ScanResult.ioError e
  | none => scanOf s link

/-- `db.HasPostChanged(link, content) (exists, updated, err)`, with the row
scan for `link` passed in: on `sql.ErrNoRows` the post is new
`(false, false, nil)`; on another error `(false, false, err)`; otherwise
compare the stored hash with `fmt.Sprintf("%x", rss.HashContent(content))`. -/
def HasPostChanged (scan : ScanResult) (content : String) : Bool × Bool × Option String :=
  match scan with
  | ScanResult.noRows => (false, false, none)
  | ScanResult.ioError e => (false, false, some e)
  | ScanResult.found storedHash =>
    let newHash := fmtHex (HashContent content)
    if storedHash ≠ newHash then (true, true, none)
    else (true, false, none)

/-! ## Post handling (`internal/rss2mastodon/rss2mastodon.go`, `internal/mastodon`) -/

/-- One feed item (`rss.RSSItem`): title, link, and description content. -/
structure RSSItem where
  title : String
  link : String
  content : String
deriving Repr, DecidableEq

/-- `mastodon.GetTootContent`: a special format for titles starting with
"Thoughts", otherwise a generic new-post line. -/
def GetTootContent (post : RSSItem) : String :=
  if post.title.startsWith "Thoughts" then post.content ++ " - " ++ post.link
  else "New blog post: " ++ post.link

/-- The outcome of the external notifier `mastodon.TootPost`. -/
inductive NotifyResult where
  | success
  | failure
deriving Repr, DecidableEq

/-- What one `handlePost` call did: the resulting store state, the toot text
passed to `mastodon.TootPost` if it was called, and whether
`db.StoreTootedPost` was called. -/
structure HandleResult where
  store : Store
  notified : Option String
  upserted : Bool
deriving Repr, DecidableEq

/-- The tail of `handlePost` once a toot text is chosen: call
`mastodon.TootPost`; only if it succeeds, call `db.StoreTootedPost`. -/
def tootThenStore (notify : String → NotifyResult) (now : String) (post : RSSItem)
    (tootContent : String) (s : Store) : HandleResult :=
  match notify tootContent with
  | NotifyResult.failure => ⟨s, some tootContent, false⟩
  | NotifyResult.success => ⟨StoreTootedPost s post.link post.content now, some tootContent, true⟩

/-- `rss2mastodon.handlePost` with the row scan made explicit: on a database
error return at once; on `exists && updated` toot the update line; on
`!exists` toot `GetTootContent`; otherwise (exists, unchanged) do nothing. -/
def handlePostScan (notify : String → NotifyResult) (now : String) (post : RSSItem)
    (scan : ScanResult) (s : Store) : HandleResult :=
  match HasPostChanged scan post.content with
  | (ex, upd, err) =>
    if err.isSome then ⟨s, none, false⟩
    else if ex && upd then
      tootThenStore notify now post ("Blog post has been updated: " ++ post.link) s
    else if !ex then
      tootThenStore notify now post (GetTootContent post) s
    else ⟨s, none, false⟩

/-- `rss2mastodon.handlePost` against a fault-free store read. -/
def handlePost (notify : String → NotifyResult) (now : String) (post : RSSItem)
    (s : Store) : HandleResult :=
  handlePostScan notify now post (scanOf s post.link) s

/-- The inner per-post loop of `Run` over one fetched batch, with a per-link
read-fault oracle: returns the final store and the toots sent, in order. -/
def processPosts (faults : String → Option String) (notify : String → NotifyResult)
    (now : String) (posts : List RSSItem) (s : Store) : Store × List String :=
  match posts with
  | [] => (s, [])
  | p :: rest =>
    let r := handlePostScan notify now p (scanWith faults s p.link) s
    let restOut := processPosts faults notify now rest r.store
    (restOut.1, (match r.notified with | some t => [t] | none => []) ++ restOut.2)

/-- `n` consecutive poll cycles, each fetching the same single item: returns
the final store and how many times the notifier was invoked. -/
def iterateHandle (notify : String → NotifyResult) (now : String) (post : RSSItem) :
    Nat → Store → Store × Nat
  | 0, s => (s, 0)
  | n + 1, s =>
    let r := handlePost notify now post s
    let rest := iterateHandle notify now post n r.store
    (rest.1, (if r.notified.isSome then 1 else 0) + rest.2)

/-- The always-succeeding notifier oracle. -/
def notifySucc : String → NotifyResult := fun _ => NotifyResult.success

/-! ## The poll loop of `Run` (`internal/rss2mastodon/rss2mastodon.go`) -/

/-- The outcome of `rss.CheckRSSFeed` at the top of one loop iteration. -/
inductive FetchResult where
  | ok (posts : List RSSItem)
  | fetchError
deriving Repr, DecidableEq

/-- The observable steps of the loop body of `Run`. -/
inductive LoopEvent where
  | fetchFeed
  | handleItem (link : String)
  | sleep (minutes : Nat)
deriving Repr, DecidableEq

/-- One iteration of the `for` loop in `Run` (empty category filter): on a
fetch error the source logs and `continue`s, skipping the `time.Sleep` at the
bottom of the loop body; on success it handles each post and then sleeps for
the configured interval. -/
def loopIteration (interval : Nat) (fr : FetchResult) : List LoopEvent :=
  match fr with
  | FetchResult.fetchError => [LoopEvent.fetchFeed]
  | FetchResult.ok posts =>
    LoopEvent.fetchFeed :: (posts.map (fun p => LoopEvent.handleItem p.link)) ++
      [LoopEvent.sleep interval]

/-- The event trace of successive loop iterations with the given fetch outcomes. -/
def loopTrace (interval : Nat) : List FetchResult → List LoopEvent
  | [] => []
  | fr :: rest => loopIteration interval fr ++ loopTrace interval rest

/-- Walking state for `sleepsBetweenFetches`: either no fetch seen yet, or the
last fetch together with whether a full-interval sleep happened since. -/
inductive FetchGap where
  | beforeFirst
  | sinceFetch (slept : Bool)
deriving Repr, DecidableEq

/-- Scan a trace checking that a sleep of the configured interval separates
every pair of consecutive feed fetches. -/
def fetchGapsOK (interval : Nat) : FetchGap → List LoopEvent → Bool
  | _, [] => true
  | FetchGap.beforeFirst, LoopEvent.fetchFeed :: rest =>
      fetchGapsOK interval (FetchGap.sinceFetch false) rest
  | FetchGap.sinceFetch slept, LoopEvent.fetchFeed :: rest =>
      slept && fetchGapsOK interval (FetchGap.sinceFetch false) rest
  | st, LoopEvent.sleep m :: rest =>
      fetchGapsOK interval
        (match st with
         | FetchGap.beforeFirst => FetchGap.beforeFirst
         | FetchGap.sinceFetch slept => FetchGap.sinceFetch (slept || (m = interval))) rest
  | st, LoopEvent.handleItem _ :: rest => fetchGapsOK interval st rest

/-- The property claimed of the loop: between any two consecutive feed
fetches there is a sleep of the configured interval. -/
def sleepsBetweenFetches (interval : Nat) (events : List LoopEvent) : Bool :=
  fetchGapsOK interval FetchGap.beforeFirst events

/-! ## Demo inputs used by witnesses -/

/-- A concrete feed item. -/
def demoPost : RSSItem := ⟨"T", "L", "B"⟩

/-- A store already holding the fingerprint of `demoPost`'s content. -/
def demoStore : Store := [("L", ⟨fmtHex (HashContent "B"), "t"⟩)]

/-- The always-failing notifier oracle. -/
def notifyFailAll : String → NotifyResult := fun _ => NotifyResult.failure

/-- A fault oracle failing every read. -/
def faultAll : String → Option String := fun _ => some "disk error"

/-! ## Helper lemmas -/

theorem toBytesBE_length (n v : Nat) : (toBytesBE n v).length = n := by
  induction n generalizing v with
  | zero => rfl
  | succ m ih => simp [toBytesBE, ih]

theorem toBytesBE_lt (n v : Nat) : ∀ b ∈ toBytesBE n v, b < 256 := by
  induction n generalizing v with
  | zero => intro b hb; simp [toBytesBE] at hb
  | succ m ih =>
    intro b hb
    simp only [toBytesBE, List.mem_append, List.mem_singleton] at hb
    rcases hb with hb | hb
    · exact ih _ b hb
    · subst hb; exact Nat.mod_lt _ (by norm_num)

theorem digestBytes_length (st : SHAState) : (digestBytes st).length = 32 := by
  simp [digestBytes, toBytesBE_length]

theorem digestBytes_lt (st : SHAState) : ∀ b ∈ digestBytes st, b < 256 := by
  intro b hb
  simp only [digestBytes, List.mem_append] at hb
  rcases hb with ((((((h | h) | h) | h) | h) | h) | h) | h <;> exact toBytesBE_lt _ _ b h

theorem HashContent_length (content : String) : (HashContent content).length = 32 :=
  digestBytes_length _

theorem HashContent_lt (content : String) : ∀ b ∈ HashContent content, b < 256 :=
  digestBytes_lt _

theorem hexDigit_mem (n : Nat) : hexDigit n ∈ hexChars := by
  unfold hexDigit
  split <;> decide

theorem hexEncodeBytes_length (bs : List Nat) :
    (hexEncodeBytes bs).length = 2 * bs.length := by
  induction bs with
  | nil => rfl
  | cons b tl ih => simp [hexEncodeBytes, ih]; ring

theorem hexEncodeBytes_mem (bs : List Nat) : ∀ c ∈ hexEncodeBytes bs, c ∈ hexChars := by
  induction bs with
  | nil => intro c hc; simp [hexEncodeBytes] at hc
  | cons b tl ih =>
    intro c hc
    simp only [hexEncodeBytes, List.mem_cons] at hc
    rcases hc with hc | hc | hc
    · subst hc; exact hexDigit_mem _
    · subst hc; exact hexDigit_mem _
    · exact ih c hc

theorem lookupRecord_upsert_self (s : Store) (link : String) (r : HistoryRecord) :
    lookupRecord (upsert s link r) link = some r := by
  induction s with
  | nil => simp [upsert, lookupRecord]
  | cons hd tl ih =>
    obtain ⟨l, r0⟩ := hd
    by_cases h : l = link
    · simp [upsert, h, lookupRecord]
    · simp [upsert, h, lookupRecord, ih]

theorem handlePost_unchanged (notify : String → NotifyResult) (now : String)
    (post : RSSItem) (s : Store) (r : HistoryRecord)
    (h1 : lookupRecord s post.link = some r)
    (h2 : r.content_hash = fmtHex (HashContent post.content)) :
    handlePost notify now post s = ⟨s, none, false⟩ := by
  simp [handlePost, handlePostScan, scanOf, h1, HasPostChanged, h2]

theorem iterateHandle_stable (notify : String → NotifyResult) (now : String)
    (post : RSSItem) (m : Nat) (s : Store) (r : HistoryRecord)
    (h1 : lookupRecord s post.link = some r)
    (h2 : r.content_hash = fmtHex (HashContent post.content)) :
    iterateHandle notify now post m s = (s, 0) := by
  induction m with
  | zero => rfl
  | succ k ih => simp [iterateHandle, handlePost_unchanged notify now post s r h1 h2, ih]

theorem handlePost_new_success (now : String) (post : RSSItem) (s : Store)
    (hnew : lookupRecord s post.link = none) :
    handlePost notifySucc now post s =
      ⟨StoreTootedPost s post.link post.content now, some (GetTootContent post), true⟩ := by
  simp [handlePost, handlePostScan, scanOf, hnew, HasPostChanged, tootThenStore, notifySucc]

/-! ## Claim theorems -/

/-- Claim C1: for every item, if the notification call fails, the history
store is not mutated — `StoreTootedPost` is not called and the store state is
exactly what it was before — and in particular for a NEW item no record
exists for its link afterwards, so the next cycle classifies the same
(link, body) as NEW again. -/
theorem notify_failure_leaves_store_untouched
    (notify : String → NotifyResult) (now : String) (post : RSSItem) (s : Store)
    (hfail : ∀ t, notify t = NotifyResult.failure) :
    (handlePost notify now post s).store = s ∧
    (handlePost notify now post s).upserted = false ∧
    (lookupRecord s post.link = none →
      lookupRecord (handlePost notify now post s).store post.link = none ∧
      HasPostChanged (scanOf (handlePost notify now post s).store post.link) post.content =
        (false, false, none)) := by
  have hbase : (handlePost notify now post s).store = s ∧
      (handlePost notify now post s).upserted = false := by
    rcases hl : lookupRecord s post.link with _ | r
    · simp [handlePost, handlePostScan, scanOf, hl, HasPostChanged, tootThenStore, hfail]
    · by_cases hh : r.content_hash = fmtHex (HashContent post.content)
      · simp [handlePost, handlePostScan, scanOf, hl, HasPostChanged, hh]
      · simp [handlePost, handlePostScan, scanOf, hl, HasPostChanged, hh, tootThenStore, hfail]
  refine ⟨hbase.1, hbase.2, fun hnew => ?_⟩
  rw [hbase.1]
  exact ⟨hnew, by simp [scanOf, hnew, HasPostChanged]⟩

/-- Witness for C1: with an always-failing notifier and an empty store, the
store stays empty, no upsert happens, and the item would again be NEW. -/
theorem notify_failure_leaves_store_untouched_witness :
    (handlePost notifyFailAll "t" demoPost []).store = ([] : Store) ∧
    (handlePost notifyFailAll "t" demoPost []).upserted = false ∧
    HasPostChanged (scanOf (handlePost notifyFailAll "t" demoPost []).store demoPost.link)
      demoPost.content = (false, false, none) := by
  obtain ⟨h1, h2, h3⟩ :=
    notify_failure_leaves_store_untouched notifyFailAll "t" demoPost [] (fun _ => rfl)
  exact ⟨h1, h2, (h3 rfl).2⟩

/-- Claim C2: `HasPostChanged` returns NEW `(false, false, nil)` exactly when
the lookup for the link is absent, UPDATED `(true, true, nil)` exactly when a
record exists whose stored fingerprint differs from the hex-encoded
fingerprint of the body, and UNCHANGED `(true, false, nil)` exactly when a
record exists with an equal fingerprint. -/
theorem classifier_cases (s : Store) (link body : String) :
    (HasPostChanged (scanOf s link) body = (false, false, none) ↔
      lookupRecord s link = none) ∧
    (HasPostChanged (scanOf s link) body = (true, true, none) ↔
      ∃ r, lookupRecord s link = some r ∧ r.content_hash ≠ fmtHex (HashContent body)) ∧
    (HasPostChanged (scanOf s link) body = (true, false, none) ↔
      ∃ r, lookupRecord s link = some r ∧ r.content_hash = fmtHex (HashContent body)) := by
  rcases h : lookupRecord s link with _ | r
  · simp [scanOf, HasPostChanged, h]
  · by_cases hh : r.content_hash = fmtHex (HashContent body)
    · simp [scanOf, HasPostChanged, h, hh]
    · simp [scanOf, HasPostChanged, h, hh]

/-- Witness for C2: the empty store classifies any body as NEW. -/
theorem classifier_cases_witness :
    HasPostChanged (scanOf [] "L") "B" = (false, false, none) :=
  (classifier_cases [] "L" "B").1.mpr rfl

/-- Claim C3: starting from a store with no record for the item's link, with
a constant body and a notifier that succeeds, the notifier is invoked at most
once across any number of consecutive cycles: the first cycle classifies NEW
and toots, and from the committed store every later cycle is a no-op with no
notification. -/
theorem no_duplicate_notification (post : RSSItem) (s : Store) (now : String)
    (hnew : lookupRecord s post.link = none) :
    (∀ n, (iterateHandle notifySucc now post n s).2 ≤ 1) ∧
    HasPostChanged (scanOf s post.link) post.content = (false, false, none) ∧
    (handlePost notifySucc now post s).notified = some (GetTootContent post) ∧
    (∀ m, iterateHandle notifySucc now post m (handlePost notifySucc now post s).store =
      ((handlePost notifySucc now post s).store, 0)) := by
  have hfirst := handlePost_new_success now post s hnew
  have hlook : lookupRecord (StoreTootedPost s post.link post.content now) post.link =
      some ⟨fmtHex (HashContent post.content), now⟩ :=
    lookupRecord_upsert_self s post.link _
  have hstable : ∀ m, iterateHandle notifySucc now post m
      (StoreTootedPost s post.link post.content now) =
      (StoreTootedPost s post.link post.content now, 0) :=
    fun m => iterateHandle_stable notifySucc now post m _ _ hlook rfl
  refine ⟨?_, by simp [scanOf, hnew, HasPostChanged], by rw [hfirst], ?_⟩
  · intro n
    cases n with
    | zero => simp [iterateHandle]
    | succ m => simp [iterateHandle, hfirst, hstable m]
  · intro m
    rw [hfirst]
    exact hstable m

/-- Witness for C3: an empty store, three cycles, at most one toot. -/
theorem no_duplicate_notification_witness :
    lookupRecord ([] : Store) demoPost.link = none ∧
    (iterateHandle notifySucc "t" demoPost 3 []).2 ≤ 1 :=
  ⟨rfl, (no_duplicate_notification demoPost [] "t" rfl).1 3⟩

/-- Claim C4: an item classified UNCHANGED (a record exists for its link with
the fingerprint of the current body) is a complete no-op: the notifier is not
called, no upsert happens, the store is unchanged and the same record with
the same fingerprint and timestamp remains. -/
theorem unchanged_item_is_noop (notify : String → NotifyResult) (now : String)
    (post : RSSItem) (s : Store) (r : HistoryRecord)
    (h1 : lookupRecord s post.link = some r)
    (h2 : r.content_hash = fmtHex (HashContent post.content)) :
    handlePost notify now post s = ⟨s, none, false⟩ ∧
    lookupRecord (handlePost notify now post s).store post.link = some r := by
  have h := handlePost_unchanged notify now post s r h1 h2
  exact ⟨h, by rw [h]; exact h1⟩

/-- Witness for C4: a store holding the item's fingerprint makes `handlePost`
a no-op. -/
theorem unchanged_item_is_noop_witness :
    handlePost notifySucc "t" demoPost demoStore = ⟨demoStore, none, false⟩ ∧
    lookupRecord (handlePost notifySucc "t" demoPost demoStore).store demoPost.link =
      some ⟨fmtHex (HashContent "B"), "t"⟩ :=
  unchanged_item_is_noop notifySucc "t" demoPost demoStore _ rfl rfl

/-- Claim C5 evaluation: the loop body of `Run` skips the sleep when the feed
fetch fails — the trace for a failed fetch followed by a successful one has
two consecutive fetches with no sleep between them, while two successful
fetches are separated by a sleep of the configured interval. -/
theorem fetch_error_retries_without_sleep :
    loopTrace 60 [FetchResult.fetchError, FetchResult.ok []] =
      [LoopEvent.fetchFeed, LoopEvent.fetchFeed, LoopEvent.sleep 60] ∧
    sleepsBetweenFetches 60 (loopTrace 60 [FetchResult.fetchError, FetchResult.ok []]) =
      false ∧
    sleepsBetweenFetches 60 (loopTrace 60 [FetchResult.ok [], FetchResult.ok []]) = true :=
  ⟨rfl, rfl, rfl⟩

/-- Claim C6: after a committed upsert of a body's fingerprint for a link,
classifying the same link with the same body again yields UNCHANGED. -/
theorem classify_after_commit_is_unchanged (s : Store) (link body now : String) :
    HasPostChanged (scanOf (StoreTootedPost s link body now) link) body =
      (true, false, none) := by
  unfold StoreTootedPost
  simp [scanOf, lookupRecord_upsert_self, HasPostChanged]

/-- Claim C7: `HashContent` is a total, deterministic, pure function on
strings producing a 256-bit digest (32 bytes, each below 256) for every
input, and the fingerprint persisted by `StoreTootedPost` is its 64-character
lowercase-hexadecimal encoding. -/
theorem fingerprint_total_deterministic_hex
    (content s1 s2 link now : String) (s : Store) :
    (s1 = s2 → HashContent s1 = HashContent s2) ∧
    (HashContent content).length = 32 ∧
    (∀ b ∈ HashContent content, b < 256) ∧
    lookupRecord (StoreTootedPost s link content now) link =
      some ⟨fmtHex (HashContent content), now⟩ ∧
    (fmtHex (HashContent content)).length = 64 ∧
    (∀ c ∈ (fmtHex (HashContent content)).data, c ∈ hexChars) := by
  refine ⟨fun h => by rw [h], HashContent_length content, HashContent_lt content,
    lookupRecord_upsert_self s link _, ?_, ?_⟩
  · show (hexEncodeBytes (HashContent content)).length = 64
    rw [hexEncodeBytes_length, HashContent_length]
  · intro c hc
    exact hexEncodeBytes_mem _ c hc

/-- Witness for C7: determinism and the persisted hex fingerprint at a
concrete input. -/
theorem fingerprint_total_deterministic_hex_witness :
    HashContent "B" = HashContent "B" ∧
    lookupRecord (StoreTootedPost [] "L" "B" "t") "L" =
      some ⟨fmtHex (HashContent "B"), "t"⟩ := by
  obtain ⟨h1, _, _, h4, _, _⟩ := fingerprint_total_deterministic_hex "B" "B" "B" "L" "t" []
  exact ⟨h1 rfl, h4⟩

/-- Claim C9: an absent row is a normal, successful NEW result with no error,
distinct from a storage read error, which is returned as an error; a storage
error makes `handlePost` skip the item — no notification, no store
mutation — and processing of the remaining items of the cycle continues
unaffected. -/
theorem storage_error_skips_item
    (notify : String → NotifyResult) (now : String) (post : RSSItem) (s : Store)
    (faults : String → Option String) (e : String) (rest : List RSSItem)
    (hfault : faults post.link = some e) :
    HasPostChanged (ScanResult.ioError e) post.content = (false, false, some e) ∧
    HasPostChanged ScanResult.noRows post.content = (false, false, none) ∧
    handlePostScan notify now post (ScanResult.ioError e) s = ⟨s, none, false⟩ ∧
    processPosts faults notify now (post :: rest) s =
      processPosts faults notify now rest s := by
  refine ⟨rfl, rfl, rfl, ?_⟩
  simp [processPosts, scanWith, hfault, handlePostScan, HasPostChanged]

/-- Witness for C9: a faulted read skips the item and leaves the rest of the
cycle to proceed from the same store. -/
theorem storage_error_skips_item_witness :
    handlePostScan notifySucc "t" demoPost (ScanResult.ioError "disk error") [] =
      ⟨[], none, false⟩ ∧
    processPosts faultAll notifySucc "t" [demoPost] [] =
      processPosts faultAll notifySucc "t" [] [] := by
  obtain ⟨_, _, h3, h4⟩ :=
    storage_error_skips_item notifySucc "t" demoPost [] faultAll "disk error" [] rfl
  exact ⟨h3, h4⟩

/-- Claim C10: every result of `HasPostChanged` is one of the three normal
triples or an error triple — in particular `exists = false` never comes with
`updated = true` — and with no record it returns exactly
`(false, false, nil)`. -/
theorem classifier_result_shape (scan : ScanResult) (content : String) :
    (HasPostChanged scan content = (false, false, none) ∨
     HasPostChanged scan content = (true, true, none) ∨
     HasPostChanged scan content = (true, false, none) ∨
     ∃ e, HasPostChanged scan content = (false, false, some e)) ∧
    HasPostChanged ScanResult.noRows content = (false, false, none) := by
  refine ⟨?_, rfl⟩
  cases scan with
  | noRows => exact Or.inl rfl
  | ioError e => exact Or.inr (Or.inr (Or.inr ⟨e, rfl⟩))
  | found storedHash =>
    by_cases hh : storedHash = fmtHex (HashContent content)
    · exact Or.inr (Or.inr (Or.inl (by simp [HasPostChanged, hh])))
    · exact Or.inr (Or.inl (by simp [HasPostChanged, hh]))

/-- Witness for C10: the no-record scan at a concrete input. -/
theorem classifier_result_shape_witness :
    HasPostChanged ScanResult.noRows "B" = (false, false, none) :=
  (classifier_result_shape ScanResult.noRows "B").2
